import Mathlib

/-!
Verification development for the braintrust-sdk stream reconstruction and
metrics-normalization engine.

The definitions below are a shallow embedding of the Python source:

* `src/py/src/braintrust/functions/stream.py` -- `BraintrustStream`,
  `parse_stream`, `copy` (an `itertools.tee`-based fork), `final_value`.
* `src/py/src/braintrust/oai.py` -- `_parse_metrics_from_usage`,
  `ChatCompletionWrapper._postprocess_streaming_results`,
  `ResponseWrapper._postprocess_streaming_results`, and the span lifecycle
  of `ChatCompletionWrapper.create`.

Modelling conventions:

* Python dicts with string keys are association lists updated by
  `dinsert`, which mirrors dict assignment (overwrite in place, else
  append; iteration order = insertion order).
* Python numeric leaves are modelled as `Int` (the claims never depend on
  float-specific behaviour, only on the numeric / non-numeric distinction
  and value pass-through).
* A Python expression that can raise (`d["k"]`, `lst[i]`, attribute
  access) is embedded in `Except PyErr`; `PyErr` names the Python
  exception class raised.
* `Option` encodes key/attribute absence; where the code distinguishes a
  key that is absent from a key bound to a falsy value, two `Option`
  layers are used and noted at the definition.
-/

/-- Python exception classes that the embedded code can raise. -/
inductive PyErr where
  | keyError (field : String)
  | indexError
  | attributeError (field : String)
deriving DecidableEq, Repr

/-- Python dict assignment `d[k] = v`: overwrite in place if the key
exists, otherwise append (insertion order preserved). -/
def dinsert (k : String) (v : Int) (d : List (String × Int)) : List (String × Int) :=
  if d.any (fun p => p.1 = k) then
    d.map (fun p => if p.1 = k then (k, v) else p)
  else d ++ [(k, v)]

/-- Python list indexing `l[i]` with an `int` index: a negative index
wraps from the end; anything outside `[-len, len)` is an `IndexError`
(`none`). Returns the resolved non-negative position. -/
def pyIndex (len : Nat) (i : Int) : Option Nat :=
  if 0 ≤ i ∧ i < (len : Int) then some i.toNat
  else if -(len : Int) ≤ i ∧ i < 0 then some ((len : Int) + i).toNat
  else none

/-- In-place update of the element at a resolved position (Python mutates
the aliased element of the list). Out-of-range positions leave the list
unchanged; callers only use positions validated by `pyIndex`. -/
def update_at : List α → Nat → (α → α) → List α
  | [], _, _ => []
  | x :: rest, 0, f => f x :: rest
  | x :: rest, n + 1, f => x :: update_at rest n f

/-- Concatenation of the lists produced for each element, in order. -/
def concatMapL (f : α → List β) : List α → List β
  | [] => []
  | a :: l => f a ++ concatMapL f l

/-! ## Usage records (`_parse_metrics_from_usage`, oai.py lines 715-748) -/

/-- A value inside a provider usage record: a numeric leaf, a nested
detail mapping, or any other (non-numeric, non-dict) value. -/
inductive UsageVal where
  | num (v : Int)
  | dict (entries : List (String × UsageVal))
  | other

/-- `TOKEN_NAME_MAP` from oai.py: OpenAI field name to Braintrust name. -/
def TOKEN_NAME_MAP : List (String × String) :=
  [("total_tokens", "tokens"),
   ("prompt_tokens", "prompt_tokens"),
   ("completion_tokens", "completion_tokens"),
   ("tokens", "tokens"),
   ("input_tokens", "prompt_tokens"),
   ("output_tokens", "completion_tokens")]

/-- `TOKEN_PREFIX_MAP` from oai.py: detail-group prefix remapping. -/
def TOKEN_PFX_MAP : List (String × String) :=
  [("input", "prompt"), ("output", "completion")]

/-- One iteration of the `for oai_name, value in usage.items()` loop of
`_parse_metrics_from_usage`. -/
def usage_entry_step (metrics : List (String × Int)) (kv : String × UsageVal) :
    List (String × Int) :=
  if kv.1.endsWith "_tokens_details" then
    let raw_pfx := kv.1.dropRight ("_tokens_details".length)
    let pfx := (TOKEN_PFX_MAP.lookup raw_pfx).getD raw_pfx
    match kv.2 with
    | .dict details =>
        details.foldl
          (fun m dkv =>
            match dkv.2 with
            | .num n => dinsert (pfx ++ "_" ++ dkv.1) n m
            | _ => m)
          metrics
    | _ => metrics
  else
    match kv.2 with
    | .num n => dinsert ((TOKEN_NAME_MAP.lookup kv.1).getD kv.1) n metrics
    | _ => metrics

/-- `_parse_metrics_from_usage` (oai.py): `not usage or not
isinstance(usage, dict)` returns the empty dict (an empty dict is falsy);
otherwise fold `usage_entry_step` over the items in order. -/
def parse_metrics_from_usage (usage : UsageVal) : List (String × Int) :=
  match usage with
  | .dict [] => []
  | .dict entries => entries.foldl usage_entry_step []
  | _ => []

/-- Modelled from the spec (section 4.2), for comparison with
`parse_metrics_from_usage`: the entries a single top-level usage field
emits. A field ending in the detail-group suffix whose value is a mapping
emits one `{prefix}_{detailName}` entry per numeric detail value with the
prefix remapped through `TOKEN_PFX_MAP`; any other field with a numeric
value emits one entry under its canonical name; everything else emits
nothing. -/
def spec_emit_field (name : String) (v : UsageVal) : List (String × Int) :=
  if name.endsWith "_tokens_details" then
    match v with
    | .dict details =>
        details.filterMap
          (fun kv =>
            match kv.2 with
            | .num n =>
                some
                  (((TOKEN_PFX_MAP.lookup (name.dropRight ("_tokens_details".length))).getD
                      (name.dropRight ("_tokens_details".length))) ++ "_" ++ kv.1, n)
            | _ => none)
    | _ => []
  else
    match v with
    | .num n => [((TOKEN_NAME_MAP.lookup name).getD name, n)]
    | _ => []

/-- Modelled from the spec (section 4.2), for comparison with
`parse_metrics_from_usage`: collect every field's emitted entries in
order into one metrics dict; a non-mapping or empty input yields the
empty mapping. -/
def spec_normalize_usage (usage : UsageVal) : List (String × Int) :=
  match usage with
  | .dict [] => []
  | .dict entries =>
      (concatMapL (fun kv => spec_emit_field kv.1 kv.2) entries).foldl
        (fun m p => dinsert p.1 p.2 m) []
  | _ => []

/-! ## Stream chunks and `parse_stream` (stream.py lines 16-137) -/

/-- `BraintrustStreamChunk`: the tagged union of `BraintrustTextChunk`
and `BraintrustJsonChunk`, each carrying a string `data` payload. -/
inductive BraintrustStreamChunk where
  | textChunk (data : String)
  | jsonChunk (data : String)
deriving DecidableEq, Repr

/-- Whether a chunk is a `BraintrustJsonChunk`. -/
def is_json_chunk : BraintrustStreamChunk → Bool
  | .jsonChunk _ => true
  | .textChunk _ => false

/-- The `data` payload of a chunk. -/
def chunk_data : BraintrustStreamChunk → String
  | .jsonChunk d => d
  | .textChunk d => d

/-- The final value of a stream: a parsed JSON document, a concatenated
text string, or the Python `None` sentinel. `α` is the JSON parse result
type; `json.loads` is the parameter `parse`. -/
inductive FinalValue (α : Type) where
  | jsonValue (v : α)
  | textValue (s : String)
  | nullValue
deriving DecidableEq, Repr

/-- `parse_stream` (stream.py lines 113-137): partition the chunks into
text and JSON payload lists in arrival order; if any JSON chunks exist,
parse their concatenation; else if any text chunks exist, concatenate
them; else `None`. -/
def parse_stream (parse : String → α) (chunks : List BraintrustStreamChunk) :
    FinalValue α :=
  let text_chunks := chunks.filterMap
    (fun c => match c with | .textChunk d => some d | .jsonChunk _ => none)
  let json_chunks := chunks.filterMap
    (fun c => match c with | .jsonChunk d => some d | .textChunk _ => none)
  if json_chunks.isEmpty then
    if text_chunks.isEmpty then .nullValue
    else .textValue (String.join text_chunks)
  else .jsonValue (parse (String.join json_chunks))

/-! ## `BraintrustStream.copy` as an `itertools.tee` fork (stream.py lines 74-85) -/

/-- The state of one `itertools.tee` pair over a finite underlying
generator: `source` holds the items the underlying generator has not yet
produced; `bufA` (resp. `bufB`) holds items already pulled from the
source by the other branch and buffered for branch A (resp. B). -/
structure Tee (α : Type) where
  source : List α
  bufA : List α
  bufB : List α
deriving DecidableEq, Repr

/-- One `next()` on tee branch A: take from A's buffer first; otherwise
pull from the source, buffering the item for branch B; `none` when
exhausted. -/
def tee_nextA : Tee α → Option α × Tee α
  | ⟨src, x :: restA, bB⟩ => (some x, ⟨src, restA, bB⟩)
  | ⟨x :: rest, [], bB⟩ => (some x, ⟨rest, [], bB ++ [x]⟩)
  | ⟨[], [], bB⟩ => (none, ⟨[], [], bB⟩)

/-- One `next()` on tee branch B, symmetric to `tee_nextA`. -/
def tee_nextB : Tee α → Option α × Tee α
  | ⟨src, bA, x :: restB⟩ => (some x, ⟨src, bA, restB⟩)
  | ⟨x :: rest, bA, []⟩ => (some x, ⟨rest, bA ++ [x], []⟩)
  | ⟨[], bA, []⟩ => (none, ⟨[], bA, []⟩)

/-- Pull every remaining item from the source in order, buffering each
for the other branch: returns the items pulled and the other branch's
extended buffer. -/
def tee_pull_source : List α → List α → List α × List α
  | [], other => ([], other)
  | x :: rest, other =>
      let r := tee_pull_source rest (other ++ [x])
      (x :: r.1, r.2)

/-- Drain tee branch A to exhaustion: everything in A's buffer, then
everything left in the source (each source item is buffered for B). -/
def tee_drainA (t : Tee α) : List α × Tee α :=
  let r := tee_pull_source t.source t.bufB
  (t.bufA ++ r.1, ⟨[], [], r.2⟩)

/-- Drain tee branch B to exhaustion, symmetric to `tee_drainA`. -/
def tee_drainB (t : Tee α) : List α × Tee α :=
  let r := tee_pull_source t.source t.bufA
  (t.bufB ++ r.1, ⟨[], r.2, []⟩)

/-- At most `n` `next()` calls on branch A, collecting the yielded items. -/
def tee_takeA : Nat → Tee α → List α
  | 0, _ => []
  | n + 1, t =>
      match tee_nextA t with
      | (some x, t2) => x :: tee_takeA n t2
      | (none, _) => []

/-- `BraintrustStream.copy` (stream.py lines 74-85): `self.stream,
new_stream = tee(current_stream)`. The stream the method was called on
keeps branch A; the returned `BraintrustStream(new_stream)` holds branch
B; `l` is the remaining chunk sequence of `current_stream`. -/
def stream_copy (l : List BraintrustStreamChunk) : Tee BraintrustStreamChunk :=
  ⟨l, [], []⟩

/-! ## `BraintrustStream.final_value` memoization (stream.py lines 87-101) -/

/-- The memoization-relevant state of a generator-backed
`BraintrustStream`: the chunks the underlying generator has not yet
produced, the `_memoized_final_value` attribute (Python initializes it to
`None`, which is exactly the `FinalValue.nullValue` sentinel -- the code
cannot distinguish "not yet computed" from "computed as None"), and a
ghost counter of how many times `parse_stream` has been invoked on this
stream (each invocation drains the source). -/
structure BraintrustStream (α : Type) where
  stream : List BraintrustStreamChunk
  memoized_final_value : FinalValue α
  parse_calls : Nat
deriving DecidableEq, Repr

/-- Whether a model final value denotes the Python object `None`. The
JSON parse result type is `Option α`, with `none` modelling `json.loads`
returning Python `None` (the document `null`): both the null sentinel
and a parsed JSON `null` are the very same Python object `None`. -/
def is_python_none {α : Type} : FinalValue (Option α) → Bool
  | .nullValue => true
  | .jsonValue none => true
  | _ => false

/-- The Python object a model final value denotes: `jsonValue none` is
the object `None`, i.e. exactly the null sentinel; every other value
stands for itself. `parse_stream` in Python returns the bare
`json.loads` result, so the object it hands back for a JSON-null stream
is `None` itself, not a tagged wrapper. -/
def to_python_value {α : Type} : FinalValue (Option α) → FinalValue (Option α)
  | .jsonValue none => .nullValue
  | v => v

/-- `BraintrustStream.final_value` (stream.py lines 87-101): if
`self._memoized_final_value is None` -- a check on the Python value, so
it also fires when the memo holds a parsed JSON `null` -- compute
`parse_stream(self)` (consuming the generator) and store the resulting
Python object; return the stored value. The ghost field `parse_calls`
counts `parse_stream` invocations. -/
def final_value (parse : String → Option α) (s : BraintrustStream (Option α)) :
    FinalValue (Option α) × BraintrustStream (Option α) :=
  if is_python_none s.memoized_final_value then
    let v := to_python_value (parse_stream parse s.stream)
    (v, ⟨[], v, s.parse_calls + 1⟩)
  else (s.memoized_final_value, s)

/-! ## Chat-completion delta accumulator
(`ChatCompletionWrapper._postprocess_streaming_results`, oai.py lines 162-212) -/

/-- The `function` descriptor of a tool-call entry: a dict whose
`"arguments"` key may be absent (`none`); reading it then raises
`KeyError`. `name` stands for the other keys the code never reads. -/
structure ToolFn where
  name : Option String
  arguments : Option String
deriving DecidableEq, Repr

/-- One entry of a `tool_calls` delta list: a dict whose `"id"`,
`"type"` and `"function"` keys may each be absent (`none`); the code
reads them on entry 0 and raises `KeyError` for an absent key. -/
structure ToolCallDelta where
  id : Option String
  type : Option String
  function : Option ToolFn
deriving DecidableEq, Repr

/-- The accumulated tool-call record the code builds on the first
tool-call delta: `{"id": ..., "type": ..., "function": ...}` with the
resolved `id` and `type` values and the entry's `function` dict stored
as-is (its `"arguments"` key may still be absent). -/
structure ToolCallRec where
  id : String
  type : String
  function : ToolFn
deriving DecidableEq, Repr

/-- A chat-completion message delta. Each field is `none` when the key is
absent or bound to `None` (the code reads all four with `.get`, so the
two cases behave identically). -/
structure ChatDelta where
  role : Option String
  finish_reason : Option String
  content : Option String
  tool_calls : Option (List ToolCallDelta)

/-- One element of a fragment's `choices` list. `delta = none` models a
choice without a `"delta"` key (`choices[0]["delta"]` raises `KeyError`);
`delta = some none` models a falsy delta (`None` or an empty dict), which
`if not delta: continue` skips. -/
structure ChatChoice where
  delta : Option (Option ChatDelta)

/-- One streamed chat-completion fragment, already converted to a dict.
`usage = none` models an absent `"usage"` key and `usage = some none` a
key bound to `None` (the code checks `"usage" in result and
result["usage"] is not None`). `choices = none` models an absent
`"choices"` key (`result["choices"]` raises `KeyError`); a key bound to a
falsy value (`None` or `[]`) is modelled as `some []`, which the code
skips identically. -/
structure ChatFragment where
  usage : Option (Option UsageVal)
  choices : Option (List ChatChoice)

/-- The accumulator state of `_postprocess_streaming_results`: the five
local variables. `tool_calls = some rec` models the singleton list
`[rec]` the code builds (`tool_calls` is either `None` or a one-element
list). -/
structure ChatState where
  role : Option String
  content : Option String
  tool_calls : Option ToolCallRec
  finish_reason : Option String
  metrics : List (String × Int)

/-- The `if "usage" in result and result["usage"] is not None` update:
`metrics` is replaced by the normalized usage; every other local is
untouched. -/
def apply_usage (st : ChatState) (u : Option (Option UsageVal)) : ChatState :=
  match u with
  | some (some uv) => { st with metrics := parse_metrics_from_usage uv }
  | _ => st

/-- The two tool-call branches, with every dict access explicit. On the
first tool-call delta the record is initialized from entry 0, reading
`"id"`, `"type"` and `"function"` in dict-literal order (each raising
`KeyError` when absent). Afterwards,
`tool_calls[0]["function"]["arguments"] +=
delta["tool_calls"][0]["function"]["arguments"]` first reads the stored
record's `"arguments"` (augmented-assignment target), then the delta
entry's `"function"`, then its `"arguments"` -- each raising `KeyError`
when absent. -/
def merge_tool_call : Option ToolCallRec → ToolCallDelta → Except PyErr ToolCallRec
  | none, tc =>
      match tc.id with
      | none => .error (.keyError "id")
      | some i =>
        match tc.type with
        | none => .error (.keyError "type")
        | some ty =>
          match tc.function with
          | none => .error (.keyError "function")
          | some fn => .ok ⟨i, ty, fn⟩
  | some existing, tc =>
      match existing.function.arguments with
      | none => .error (.keyError "arguments")
      | some old =>
        match tc.function with
        | none => .error (.keyError "function")
        | some fn =>
          match fn.arguments with
          | none => .error (.keyError "arguments")
          | some add =>
              .ok { existing with function :=
                { existing.function with arguments := some (old ++ add) } }

/-- The four sequential field updates the loop body performs for a truthy
delta, written as one record (each update reads the pre-iteration state
and writes a distinct field, so the sequential form and this simultaneous
form agree): role is set once, finish reason is overwritten by a non-null
value, content is appended, and `delta["tool_calls"][0]` raises
`IndexError` on a present empty list. -/
def apply_delta (st : ChatState) (delta : ChatDelta) : Except PyErr ChatState :=
  let new_role := if st.role.isNone && delta.role.isSome then delta.role else st.role
  let new_finish :=
    match delta.finish_reason with
    | some fr => some fr
    | none => st.finish_reason
  let new_content :=
    match delta.content with
    | some ct => some (st.content.getD "" ++ ct)
    | none => st.content
  match delta.tool_calls with
  | none =>
      .ok { role := new_role, content := new_content, tool_calls := st.tool_calls,
            finish_reason := new_finish, metrics := st.metrics }
  | some [] => .error .indexError
  | some (tc :: _) =>
      (merge_tool_call st.tool_calls tc).map
        (fun rec =>
          { role := new_role, content := new_content, tool_calls := some rec,
            finish_reason := new_finish, metrics := st.metrics })

/-- One iteration of the `for result in all_results` loop of
`ChatCompletionWrapper._postprocess_streaming_results`, with every
fallible dict access made explicit. -/
def chat_step (st : ChatState) (result : ChatFragment) : Except PyErr ChatState :=
  let st := apply_usage st result.usage
  match result.choices with
  | none => .error (.keyError "choices")
  | some [] => .ok st
  | some (c :: _) =>
    match c.delta with
    | none => .error (.keyError "delta")
    | some none => .ok st
    | some (some delta) => apply_delta st delta

/-- Fold `chat_step` over the fragments, aborting at the first Python
exception (the loop body raises out of `_postprocess_streaming_results`). -/
def chat_fold : ChatState → List ChatFragment → Except PyErr ChatState
  | st, [] => .ok st
  | st, f :: rest =>
      match chat_step st f with
      | .ok st2 => chat_fold st2 rest
      | .error e => .error e

/-- The finalized message inside the single output element. -/
structure ChatMessage where
  role : Option String
  content : Option String
  tool_calls : Option ToolCallRec
deriving DecidableEq, Repr

/-- The single element of the returned `output` list. -/
structure ChatOutput where
  index : Nat
  message : ChatMessage
  logprobs : Option Unit
  finish_reason : Option String
deriving DecidableEq, Repr

/-- The value of `_postprocess_streaming_results`: the metrics mapping
and the one-element output list. -/
structure ChatResult where
  metrics : List (String × Int)
  output : List ChatOutput
deriving DecidableEq, Repr

/-- The return statement of `_postprocess_streaming_results`. -/
def chat_finalize (st : ChatState) : ChatResult :=
  { metrics := st.metrics,
    output := [{ index := 0,
                 message := { role := st.role, content := st.content,
                              tool_calls := st.tool_calls },
                 logprobs := none,
                 finish_reason := st.finish_reason }] }

/-- The initial accumulator state: all five locals start as `None` / `{}`. -/
def chat_init : ChatState :=
  { role := none, content := none, tool_calls := none, finish_reason := none,
    metrics := [] }

/-- `ChatCompletionWrapper._postprocess_streaming_results` in full. -/
def chat_postprocess (all_results : List ChatFragment) : Except PyErr ChatResult :=
  (chat_fold chat_init all_results).map chat_finalize

/-- A fragment the accumulator can process without raising: the
`"choices"` key is present; if the choice list is nonempty, its head has
a `"delta"` key; a present truthy delta with a `tool_calls` list has a
nonempty one whose first entry carries `"id"`, `"type"` and a
`"function"` dict with an `"arguments"` string. -/
def wf_fragment (f : ChatFragment) : Bool :=
  match f.choices with
  | none => false
  | some [] => true
  | some (c :: _) =>
    match c.delta with
    | none => false
    | some none => true
    | some (some d) =>
      match d.tool_calls with
      | none => true
      | some [] => false
      | some (tc :: _) =>
        match tc.id, tc.type, tc.function with
        | some _, some _, some fn => fn.arguments.isSome
        | _, _, _ => false

/-- The invariant the accumulated state keeps while folding well-formed
fragments: a present tool-call record has an `"arguments"` string (so
the augmented assignment of the merge branch cannot raise). -/
def wf_tool_state (st : ChatState) : Bool :=
  match st.tool_calls with
  | none => true
  | some rec => rec.function.arguments.isSome

/-! ## Structured-response accumulator
(`ResponseWrapper._postprocess_streaming_results`, oai.py lines 345-399) -/

/-- The `usage` attribute of a structured-response event (the code reads
`total_tokens`, `input_tokens` and `output_tokens`). -/
structure RespUsage where
  total_tokens : Int
  input_tokens : Int
  output_tokens : Int
deriving DecidableEq, Repr

/-- The `item` attribute of `output_item.added` / `output_item.done`
events (the code reads `id` and `type` on add, `status` on done). -/
structure RespItem where
  id : String
  type : String
  status : String
deriving DecidableEq, Repr

/-- One entry of a slot's `content` list: accumulated `text` and the
annotation payloads (each `result.annotation.dict()` is modelled as an
opaque string). A `none` field models a key not yet set on the dict. -/
structure ContentEntry where
  text : Option String
  annots : Option (List String)
deriving DecidableEq, Repr

/-- One output slot dict, created by `output_item.added` with `id` and
`type` and extended in place by later events. -/
structure OutputSlot where
  id : String
  type : String
  status : Option String
  delta : Option String
  content : Option (List ContentEntry)
deriving DecidableEq, Repr

/-- A structured-response streamed event. Each `Option` attribute is
`none` when the event object lacks that attribute (`hasattr` is false;
reading it raises `AttributeError`). `annot_index` and `annot` model the
`annotation_index` and `annotation` attributes. -/
structure RespEvent where
  type : String
  usage : Option RespUsage
  item : Option RespItem
  output_index : Option Int
  delta : Option String
  content_index : Option Int
  annot_index : Option Int
  annot : Option String
deriving DecidableEq, Repr

/-- The accumulator state of
`ResponseWrapper._postprocess_streaming_results`: the metrics dict and
the output slot list (the claims exercised here do not touch its unused
`role`/`content`/`tool_calls`/`finish_reason` locals, which the code
never updates in this method). -/
structure RespState where
  metrics : List (String × Int)
  output : List OutputSlot
deriving DecidableEq, Repr

/-- The slot default used with `List.getD` after `pyIndex` has validated
the position (never actually selected). -/
def default_slot : OutputSlot := ⟨"", "", none, none, none⟩

/-- The `hasattr(result, "usage")` update of
`ResponseWrapper._postprocess_streaming_results`: metrics are replaced by
the direct three-field mapping; the output list is untouched. -/
def resp_apply_usage (st : RespState) (u : Option RespUsage) : RespState :=
  match u with
  | some uu =>
      { st with metrics := [("tokens", uu.total_tokens), ("prompt_tokens", uu.input_tokens), ("completion_tokens", uu.output_tokens)] }
  | none => st

/-- The content-index-bearing tail of the loop body, after
`current_output = output[output_index]` resolved to position `idx` and
`content_index` was read as `ci`: ensure a content list, append a fresh
entry when `ci` equals its length, then resolve
`current_output["content"][content_index]` (raising `IndexError` outside
the list), append a truthy text delta, and handle
annotation-added events with the same append-or-overwrite indexing. -/
def resp_content_step (st : RespState) (result : RespEvent) (idx : Nat) (ci : Int) :
    Except PyErr RespState :=
  let slot := st.output.getD idx default_slot
  let content0 := slot.content.getD []
  let content1 :=
    if ci = (content0.length : Int) then content0 ++ [⟨none, none⟩] else content0
  match pyIndex content1.length ci with
  | none => .error .indexError
  | some cidx =>
    let content2 :=
      match result.delta with
      | some d =>
          if d ≠ "" then
            update_at content1 cidx
              (fun ce => { ce with text := some (ce.text.getD "" ++ d) })
          else content1
      | none => content1
    if result.type = "response.output_text.annotation.added" then
      match result.annot_index with
      | none => .error (.attributeError "annotation_index")
      | some ai =>
        match result.annot with
        | none => .error (.attributeError "annotation")
        | some a =>
          let ce := content2.getD cidx ⟨none, none⟩
          let anns0 := ce.annots.getD []
          let anns1 :=
            if ai = (anns0.length : Int) then anns0 ++ [""] else anns0
          match pyIndex anns1.length ai with
          | none => .error .indexError
          | some aidx =>
            let content3 :=
              update_at content2 cidx
                (fun c => { c with annots := some (update_at anns1 aidx (fun _ => a)) })
            let out := update_at st.output idx (fun s => { s with content := some content3 })
            .ok { st with output := out }
    else
      let out := update_at st.output idx (fun s => { s with content := some content2 })
      .ok { st with output := out }

/-- The loop body after `current_output = output[output_index]` resolved
to position `idx`: dispatch on the event type (`output_item.done`,
`output_item.delta`), else on the presence of a content index. -/
def resp_step_at (st : RespState) (result : RespEvent) (idx : Nat) :
    Except PyErr RespState :=
  if result.type = "response.output_item.done" then
    match result.item with
    | none => .error (.attributeError "item")
    | some it =>
        let out := update_at st.output idx (fun s => { s with status := some it.status })
        .ok { st with output := out }
  else if result.type = "response.output_item.delta" then
    match result.delta with
    | none => .error (.attributeError "delta")
    | some d =>
        let out := update_at st.output idx (fun s => { s with delta := some d })
        .ok { st with output := out }
  else
    match result.content_index with
    | none => .ok st
    | some ci => resp_content_step st result idx ci

/-- One iteration of the `for result in all_results` loop of
`ResponseWrapper._postprocess_streaming_results`, with every fallible
attribute access and list indexing made explicit, in source order: usage
check, `output_item.added` (appends a fresh slot), the
`output[output_index]` lookup (skipped when the event has no
`output_index` attribute; `IndexError` outside the list), then the
per-slot dispatch `resp_step_at`. -/
def resp_step (st : RespState) (result : RespEvent) : Except PyErr RespState :=
  let st := resp_apply_usage st result.usage
  if result.type = "response.output_item.added" then
    match result.item with
    | none => .error (.attributeError "item")
    | some it => .ok { st with output := st.output ++ [⟨it.id, it.type, none, none, none⟩] }
  else
    match result.output_index with
    | none => .ok st
    | some oi =>
      match pyIndex st.output.length oi with
      | none => .error .indexError
      | some idx => resp_step_at st result idx

/-- Fold `resp_step` over the events, aborting at the first Python
exception. -/
def resp_fold : RespState → List RespEvent → Except PyErr RespState
  | st, [] => .ok st
  | st, ev :: rest =>
      match resp_step st ev with
      | .ok st2 => resp_fold st2 rest
      | .error e => .error e

/-- `ResponseWrapper._postprocess_streaming_results` in full: fold the
events from the empty state; the return value is the final metrics dict
and output list. -/
def resp_postprocess (all_results : List RespEvent) : Except PyErr RespState :=
  resp_fold ⟨[], []⟩ all_results

/-! ## Call interceptor span lifecycle
(`ChatCompletionWrapper.create`, oai.py lines 37-88) -/

/-- The span-sink calls the interceptor makes, in order. Wall-clock
metric values (`time_to_first_token`) are outside the model; the event
records that the corresponding `span.log` call happened. -/
inductive SpanEvent where
  | spanStart
  | logTTFT
  | logStreamResult (r : ChatResult)
  | logImmediateResult (metrics : List (String × Int))
  | spanEnd
deriving DecidableEq, Repr

/-- How one invocation terminates from the caller's point of view. -/
inductive Outcome where
  | ok
  | raised
deriving DecidableEq, Repr

/-- The behaviour of the wrapped provider call: it raises, returns a
non-streaming response (with an optional `usage` dict and a `choices`
key present or missing), or returns a stream of fragments. -/
inductive ProviderBehavior where
  | raisesOnCall
  | immediate (usage : Option UsageVal) (choices_present : Bool)
  | streaming (frags : List ChatFragment)

/-- How the consumer drives a returned streaming generator: pull it to
exhaustion, or perform `k + 1` `next()` calls and then close it (the
claims' abandonment scenarios consume at least the first chunk, so the
generator body has started and its `finally` runs on close). -/
inductive Consumer where
  | exhaust
  | abandonAfter (k : Nat)

/-- The number of `next()` calls the consumer performs on a stream of
`n` fragments before closing: exhaustion needs `n + 1` calls (the last
one runs the post-loop logging and raises `StopIteration`). -/
def consumer_pulls (c : Consumer) (n : Nat) : Nat :=
  match c with
  | .exhaust => n + 1
  | .abandonAfter k => min (k + 1) (n + 1)

/-- The events the `gen()` generator (oai.py lines 56-73) emits, given
the remaining fragments, the remaining number of `next()` calls, the
`first` flag and the accumulated `all_results` (in reverse). `m = 0` at a
yield means the consumer closes the generator: `GeneratorExit` is raised
at the yield, the `finally` block ends the span, and `close()` returns
normally. Pulling past the last fragment runs
`span.log(**postprocess(all_results))` and then ends the span; a Python
exception from the postprocessing propagates to the consumer after the
`finally` has ended the span. -/
def gen_run : List ChatFragment → Nat → Bool → List ChatFragment → List SpanEvent × Outcome
  | _, 0, _, _ => ([SpanEvent.spanEnd], Outcome.ok)
  | [], _ + 1, _, acc =>
      match chat_postprocess acc.reverse with
      | .ok r => ([SpanEvent.logStreamResult r, SpanEvent.spanEnd], Outcome.ok)
      | .error _ => ([SpanEvent.spanEnd], Outcome.raised)
  | f :: rest, m + 1, first, acc =>
      let pre := if first then [SpanEvent.logTTFT] else []
      let r := gen_run rest m false (f :: acc)
      (pre ++ r.1, r.2)

/-- `ChatCompletionWrapper.create` (oai.py lines 37-88) as a span-event
trace. A raising provider call ends the span in the outer `finally` and
propagates. A non-streaming response logs usage-derived metrics and the
`choices` output, then ends the span (`log_response["choices"]` raising
`KeyError` skips the log but still ends the span). A streaming response
sets `should_end = False` and returns `gen()`, whose events follow
`gen_run`. -/
def create_trace (pb : ProviderBehavior) (c : Consumer) : List SpanEvent × Outcome :=
  match pb with
  | .raisesOnCall => ([SpanEvent.spanStart, SpanEvent.spanEnd], Outcome.raised)
  | .immediate usage choices_present =>
      if choices_present then
        ([SpanEvent.spanStart,
          SpanEvent.logImmediateResult (parse_metrics_from_usage (usage.getD (.dict []))),
          SpanEvent.spanEnd], Outcome.ok)
      else ([SpanEvent.spanStart, SpanEvent.spanEnd], Outcome.raised)
  | .streaming frags =>
      let r := gen_run frags (consumer_pulls c frags.length) true []
      (SpanEvent.spanStart :: r.1, r.2)

/-- Whether a span event is the `span.end()` call. -/
def is_span_end : SpanEvent → Bool
  | .spanEnd => true
  | _ => false

/-- Whether a span event is the final `span.log` of accumulated
streaming output and metrics. -/
def is_log_stream : SpanEvent → Bool
  | .logStreamResult _ => true
  | _ => false

/-! ## Concrete demonstration inputs and field-absence predicates -/

/-- A fragment whose single choice's delta carries only a role. -/
def demo_role_frag : ChatFragment :=
  ⟨none, some [⟨some (some ⟨some "assistant", none, none, none⟩)⟩]⟩

/-- A fragment whose single choice's delta carries only content. -/
def demo_content_frag (s : String) : ChatFragment :=
  ⟨none, some [⟨some (some ⟨none, none, some s, none⟩)⟩]⟩

/-- A fragment carrying `finish_reason` in its delta and
`usage = {total_tokens: 5}` at the fragment level. -/
def demo_finish_frag : ChatFragment :=
  ⟨some (some (.dict [("total_tokens", .num 5)])),
   some [⟨some (some ⟨none, some "stop", none, none⟩)⟩]⟩

/-- A fragment whose delta carries `tool_calls: [{}]` -- a nonempty
tool-call list whose first entry is an empty dict (no `id`, `type` or
`function` key). -/
def demo_empty_tool_entry_frag : ChatFragment :=
  ⟨none, some [⟨some (some ⟨none, none, none, some [⟨none, none, none⟩]⟩)⟩]⟩

/-- No delta of this fragment carries a `content` field. -/
def delta_content_absent (f : ChatFragment) : Bool :=
  match f.choices with
  | some (c :: _) =>
      match c.delta with
      | some (some d) => d.content.isNone
      | _ => true
  | _ => true

/-- No delta of this fragment carries a `role` field. -/
def delta_role_absent (f : ChatFragment) : Bool :=
  match f.choices with
  | some (c :: _) =>
      match c.delta with
      | some (some d) => d.role.isNone
      | _ => true
  | _ => true

/-- No delta of this fragment carries a `tool_calls` field. -/
def delta_tool_calls_absent (f : ChatFragment) : Bool :=
  match f.choices with
  | some (c :: _) =>
      match c.delta with
      | some (some d) => d.tool_calls.isNone
      | _ => true
  | _ => true

/-- No delta of this fragment carries a `finish_reason` field. -/
def delta_finish_absent (f : ChatFragment) : Bool :=
  match f.choices with
  | some (c :: _) =>
      match c.delta with
      | some (some d) => d.finish_reason.isNone
      | _ => true
  | _ => true

/-- An `output_item.done` event addressing output index 0 while no output
slot exists. -/
def demo_done_event : RespEvent :=
  { type := "response.output_item.done", usage := none,
    item := some ⟨"item_0", "message", "completed"⟩,
    output_index := some 0, delta := none, content_index := none,
    annot_index := none, annot := none }

/-! ## Supporting lemmas -/

/-- The text payloads collected by `parse_stream` are the data of the
non-JSON chunks, in order. -/
theorem filterMap_text_eq (chunks : List BraintrustStreamChunk) :
    chunks.filterMap (fun c => match c with | .textChunk d => some d | .jsonChunk _ => none)
      = (chunks.filter (fun c => !is_json_chunk c)).map chunk_data := by
  induction chunks with
  | nil => rfl
  | cons c rest ih => cases c <;> simp [is_json_chunk, chunk_data, List.filter_cons, ih]

/-- The JSON payloads collected by `parse_stream` are the data of the
JSON chunks, in order. -/
theorem filterMap_json_eq (chunks : List BraintrustStreamChunk) :
    chunks.filterMap (fun c => match c with | .jsonChunk d => some d | .textChunk _ => none)
      = (chunks.filter is_json_chunk).map chunk_data := by
  induction chunks with
  | nil => rfl
  | cons c rest ih => cases c <;> simp [is_json_chunk, chunk_data, List.filter_cons, ih]

/-- A filtered list is empty exactly when no element satisfies the
predicate. -/
theorem filter_isEmpty_eq (p : α → Bool) (l : List α) :
    (l.filter p).isEmpty = !l.any p := by
  induction l with
  | nil => rfl
  | cons x rest ih => cases hx : p x <;> simp [List.filter_cons, hx, ih]

/-- Mapping preserves emptiness. -/
theorem map_isEmpty_eq (f : α → β) (l : List α) :
    (l.map f).isEmpty = l.isEmpty := by
  cases l <;> rfl

/-- Claim C1: for every finite chunk sequence (and every JSON parser),
`parse_stream` follows the deterministic precedence: if any JSON chunk
exists the result is the parse of the in-order concatenation of the JSON
chunks' data (text chunks ignored); otherwise, if any text chunk exists,
the result is the in-order concatenation of the text chunks' data;
otherwise it is the null sentinel. -/
theorem parse_stream_precedence {α : Type} (parse : String → α)
    (chunks : List BraintrustStreamChunk) :
    parse_stream parse chunks =
      if chunks.any is_json_chunk then
        FinalValue.jsonValue (parse (String.join ((chunks.filter is_json_chunk).map chunk_data)))
      else if chunks.any (fun c => !is_json_chunk c) then
        FinalValue.textValue (String.join ((chunks.filter (fun c => !is_json_chunk c)).map chunk_data))
      else FinalValue.nullValue := by
  simp only [parse_stream]
  rw [filterMap_json_eq, filterMap_text_eq, map_isEmpty_eq, map_isEmpty_eq,
    filter_isEmpty_eq, filter_isEmpty_eq]
  cases h1 : chunks.any is_json_chunk <;>
    cases h2 : chunks.any (fun c => !is_json_chunk c) <;> simp

/-! ## Claim C3: the usage normalizer matches the spec description -/

/-- Folding dict insertions over a concatenation is folding the two parts
in sequence (specialization of `List.foldl_append` used below). -/
theorem foldl_dinsert_append (l1 l2 : List (String × Int)) (m : List (String × Int)) :
    (l1 ++ l2).foldl (fun m p => dinsert p.1 p.2 m) m
      = l2.foldl (fun m p => dinsert p.1 p.2 m) (l1.foldl (fun m p => dinsert p.1 p.2 m) m) := by
  rw [List.foldl_append]

/-- The detail-group inner loop of `_parse_metrics_from_usage` inserts
exactly the numeric detail entries, in order. -/
theorem detail_foldl_eq (details : List (String × UsageVal)) (pfx : String)
    (m : List (String × Int)) :
    details.foldl
        (fun m dkv => match dkv.2 with | .num n => dinsert (pfx ++ "_" ++ dkv.1) n m | _ => m) m
      = (details.filterMap
          (fun kv => match kv.2 with
            | .num n => some (pfx ++ "_" ++ kv.1, n)
            | _ => none)).foldl (fun m p => dinsert p.1 p.2 m) m := by
  induction details generalizing m with
  | nil => rfl
  | cons dkv rest ih =>
      obtain ⟨k, v⟩ := dkv
      cases v <;> simp [List.filterMap_cons, ih]

/-- One loop iteration of `_parse_metrics_from_usage` inserts exactly the
entries `spec_emit_field` says that field emits. -/
theorem usage_entry_step_eq_emit (m : List (String × Int)) (kv : String × UsageVal) :
    usage_entry_step m kv
      = (spec_emit_field kv.1 kv.2).foldl (fun m p => dinsert p.1 p.2 m) m := by
  obtain ⟨name, v⟩ := kv
  unfold usage_entry_step spec_emit_field
  cases h : name.endsWith "_tokens_details" with
  | false =>
      simp only [h, Bool.false_eq_true, if_false]
      cases v with
      | num n => simp
      | dict details => simp
      | other => simp
  | true =>
      simp only [h, if_true]
      cases v with
      | num n => simp
      | dict details => exact detail_foldl_eq details _ m
      | other => simp

/-- The whole loop of `_parse_metrics_from_usage` inserts the
concatenation of every field's emitted entries, in order. -/
theorem usage_foldl_eq_concat (entries : List (String × UsageVal)) (m : List (String × Int)) :
    entries.foldl usage_entry_step m
      = (concatMapL (fun kv => spec_emit_field kv.1 kv.2) entries).foldl
          (fun m p => dinsert p.1 p.2 m) m := by
  induction entries generalizing m with
  | nil => rfl
  | cons kv rest ih =>
      simp only [List.foldl_cons, concatMapL, foldl_dinsert_append, ih,
        usage_entry_step_eq_emit]

/-- Claim C3: `_parse_metrics_from_usage` emits, for each top-level field
ending in the detail-group suffix whose value is a mapping, one
`{prefix}_{detailName}` entry per numeric detail value with the prefix
remapped through the fixed prefix table; for each other top-level field
with a numeric value, one entry under its canonical name; and for any
input that is not a mapping, or is empty, it returns the empty mapping
(the Lean embedding is total, so it never raises). -/
theorem parse_metrics_matches_spec :
    (∀ usage : UsageVal, parse_metrics_from_usage usage = spec_normalize_usage usage)
    ∧ parse_metrics_from_usage (.dict []) = []
    ∧ (∀ n : Int, parse_metrics_from_usage (.num n) = [])
    ∧ parse_metrics_from_usage .other = [] := by
  refine ⟨?_, rfl, fun n => rfl, rfl⟩
  intro usage
  match usage with
  | .num n => rfl
  | .other => rfl
  | .dict [] => rfl
  | .dict (kv :: rest) =>
      unfold parse_metrics_from_usage spec_normalize_usage
      exact usage_foldl_eq_concat (kv :: rest) []

/-! ## Claim C2: concrete chat-completion accumulation -/

/-- Claim C2: folding the fragments `[{role:"assistant"}, {content:"Hel"},
{content:"lo"}, {finish_reason:"stop", usage:{total_tokens:5}}]` through
the chat-completion delta accumulator yields the finalized message
`{role:"assistant", content:"Hello", tool_calls:null,
finish_reason:"stop"}` and the metrics mapping `{tokens:5}`. -/
theorem chat_accumulation_concrete :
    chat_postprocess
        [demo_role_frag, demo_content_frag "Hel", demo_content_frag "lo", demo_finish_frag]
      = .ok { metrics := [("tokens", 5)],
              output := [{ index := 0,
                           message := { role := some "assistant", content := some "Hello",
                                        tool_calls := none },
                           logprobs := none,
                           finish_reason := some "stop" }] } := by
  rfl

/-! ## Claim C4: chat accumulator error behaviour on malformed fragments -/

/-- `apply_usage` only ever touches `metrics`. -/
theorem apply_usage_preserves (st : ChatState) (u : Option (Option UsageVal)) :
    (apply_usage st u).role = st.role ∧ (apply_usage st u).content = st.content
    ∧ (apply_usage st u).tool_calls = st.tool_calls
    ∧ (apply_usage st u).finish_reason = st.finish_reason := by
  rcases u with _ | (_ | uv) <;> exact ⟨rfl, rfl, rfl, rfl⟩

/-- Evaluating `apply_delta` on a delta whose tool-call list is nonempty,
given the outcome of the merge. -/
theorem apply_delta_tool_ok (st : ChatState) (r fr ct : Option String)
    (tc : ToolCallDelta) (rest : List ToolCallDelta) (rec : ToolCallRec)
    (hm : merge_tool_call st.tool_calls tc = .ok rec) :
    apply_delta st ⟨r, fr, ct, some (tc :: rest)⟩
      = .ok { role := if st.role.isNone && r.isSome then r else st.role,
              content := match ct with
                         | some c => some (st.content.getD "" ++ c)
                         | none => st.content,
              tool_calls := some rec,
              finish_reason := match fr with
                               | some x => some x
                               | none => st.finish_reason,
              metrics := st.metrics } := by
  simp only [apply_delta]
  rw [hm]
  rfl

/-- Splitting a successful `Except.map`. -/
theorem except_map_ok {β γ : Type} {e : Except PyErr β} {f : β → γ} {c : γ}
    (h : e.map f = .ok c) : ∃ b, e = .ok b ∧ c = f b := by
  cases e with
  | error err => exact Except.noConfusion h
  | ok b => exact ⟨b, rfl, (Except.ok.inj h).symm⟩

/-- `apply_usage` does not touch the tool-call record, so it preserves
the state invariant. -/
theorem wf_tool_state_apply_usage (st : ChatState) (u : Option (Option UsageVal)) :
    wf_tool_state (apply_usage st u) = wf_tool_state st := by
  rcases u with _ | (_ | uv) <;> rfl

/-- A single loop iteration cannot raise on a well-formed fragment when
the state invariant holds, and it re-establishes the invariant. -/
theorem chat_step_wf (st : ChatState) (f : ChatFragment)
    (h : wf_fragment f = true) (hst : wf_tool_state st = true) :
    ∃ st2, chat_step st f = .ok st2 ∧ wf_tool_state st2 = true := by
  obtain ⟨u, ch⟩ := f
  have hu : wf_tool_state (apply_usage st u) = true := by
    rw [wf_tool_state_apply_usage]; exact hst
  rcases ch with _ | (_ | ⟨⟨d⟩, cs⟩)
  · simp [wf_fragment] at h
  · exact ⟨apply_usage st u, rfl, hu⟩
  · rcases d with _ | (_ | ⟨r, fr, ct, tcs⟩)
    · simp [wf_fragment] at h
    · exact ⟨apply_usage st u, rfl, hu⟩
    · rcases tcs with _ | (_ | ⟨⟨tid, tty, tfn⟩, rest⟩)
      · exact ⟨_, rfl, hu⟩
      · simp [wf_fragment] at h
      · rcases tid with _ | i
        · simp [wf_fragment] at h
        · rcases tty with _ | ty
          · simp [wf_fragment] at h
          · rcases tfn with _ | fn
            · simp [wf_fragment] at h
            · have harg : fn.arguments.isSome = true := h
              rcases hargs : fn.arguments with _ | a
              · rw [hargs] at harg; simp at harg
              · rcases hstc : (apply_usage st u).tool_calls with _ | existing
                · have hm : merge_tool_call (apply_usage st u).tool_calls
                      ⟨some i, some ty, some fn⟩ = .ok ⟨i, ty, fn⟩ := by
                    rw [hstc]
                    rfl
                  refine ⟨_, apply_delta_tool_ok (apply_usage st u) r fr ct
                      ⟨some i, some ty, some fn⟩ rest ⟨i, ty, fn⟩ hm, ?_⟩
                  show (⟨i, ty, fn⟩ : ToolCallRec).function.arguments.isSome = true
                  rw [hargs]
                  rfl
                · have hwrec : existing.function.arguments.isSome = true := by
                    have := hu
                    unfold wf_tool_state at this
                    rw [hstc] at this
                    exact this
                  rcases hold : existing.function.arguments with _ | old
                  · rw [hold] at hwrec; simp at hwrec
                  · have hm : merge_tool_call (apply_usage st u).tool_calls
                        ⟨some i, some ty, some fn⟩
                        = .ok { existing with function :=
                            { existing.function with arguments := some (old ++ a) } } := by
                      rw [hstc]
                      simp only [merge_tool_call, hold, hargs]
                    refine ⟨_, apply_delta_tool_ok (apply_usage st u) r fr ct
                        ⟨some i, some ty, some fn⟩ rest _ hm, ?_⟩
                    rfl

/-- The whole loop cannot raise on a list of well-formed fragments,
starting from any state satisfying the invariant. -/
theorem chat_fold_ok_of_wf (frags : List ChatFragment) :
    ∀ st : ChatState, frags.all wf_fragment = true → wf_tool_state st = true →
      (chat_fold st frags).isOk = true := by
  induction frags with
  | nil => intro st _ _; rfl
  | cons f rest ih =>
      intro st h hst
      rw [List.all_cons, Bool.and_eq_true] at h
      obtain ⟨st2, hstep, hwf2⟩ := chat_step_wf st f h.1 hst
      unfold chat_fold
      rw [hstep]
      exact ih st2 h.2 hwf2

/-- Claim C4 counterexample: the claim says the accumulator never raises
even for a fragment with a missing `choices` field, but
`result["choices"]` raises `KeyError` on the fragment `{}` (no usage, no
choices key), so accumulation does not continue. -/
theorem chat_missing_choices_raises :
    chat_postprocess [⟨none, none⟩] = .error (.keyError "choices") := rfl

/-- Claim C4 (amended): the chat-completion delta accumulator never
raises on fragment sequences whose fragments all carry a `choices` key,
whose first choice (when the choice list is nonempty) carries a `delta`
key, and whose present tool-call lists are nonempty with a first entry
carrying `id`, `type` and a `function` dict with an `arguments` string;
a fragment with an empty choice list, or one whose delta is present but
falsy, is skipped with no change to the accumulated role, content,
tool-call, or finish-reason state (the fragment-level usage may still
replace the metrics); but a fragment missing the `choices` key (or the
`delta` key) raises a `KeyError` and stops accumulation, and so does a
tool-call entry missing one of its keys: `tool_calls: [{}]` raises
`KeyError("id")`. -/
theorem chat_accumulator_amended :
    (∀ frags : List ChatFragment, frags.all wf_fragment = true →
        (chat_postprocess frags).isOk = true)
    ∧ (∀ (st : ChatState) (f : ChatFragment), f.choices = some [] →
        ∃ m, chat_step st f
          = .ok { role := st.role, content := st.content, tool_calls := st.tool_calls,
                  finish_reason := st.finish_reason, metrics := m })
    ∧ (∀ (st : ChatState) (f : ChatFragment) (c : ChatChoice) (cs : List ChatChoice),
        f.choices = some (c :: cs) → c.delta = some none →
        ∃ m, chat_step st f
          = .ok { role := st.role, content := st.content, tool_calls := st.tool_calls,
                  finish_reason := st.finish_reason, metrics := m })
    ∧ chat_postprocess [demo_empty_tool_entry_frag] = .error (.keyError "id") := by
  refine ⟨?_, ?_, ?_, rfl⟩
  · intro frags h
    unfold chat_postprocess
    have hf := chat_fold_ok_of_wf frags chat_init h rfl
    rcases hfold : chat_fold chat_init frags with e | st
    · rw [hfold] at hf; simp [Except.isOk, Except.toBool] at hf
    · rfl
  · intro st f hch
    obtain ⟨u, ch⟩ := f
    have hch2 : ch = some [] := hch
    subst hch2
    refine ⟨(apply_usage st u).metrics, ?_⟩
    have h4 := apply_usage_preserves st u
    show Except.ok (apply_usage st u) = _
    rw [← h4.1, ← h4.2.1, ← h4.2.2.1, ← h4.2.2.2]
  · intro st f c cs hch hd
    obtain ⟨u, ch⟩ := f
    obtain ⟨d⟩ := c
    have hch2 : ch = some (ChatChoice.mk d :: cs) := hch
    subst hch2
    have hd2 : d = some none := hd
    subst hd2
    refine ⟨(apply_usage st u).metrics, ?_⟩
    have h4 := apply_usage_preserves st u
    show Except.ok (apply_usage st u) = _
    rw [← h4.1, ← h4.2.1, ← h4.2.2.1, ← h4.2.2.2]

/-- Witness for the amended C4 theorem at a concrete well-formed input:
one fragment with an empty choice list is accepted without raising. -/
theorem chat_accumulator_amended_witness :
    (([⟨none, some []⟩] : List ChatFragment).all wf_fragment = true)
    ∧ (chat_postprocess [(⟨none, some []⟩ : ChatFragment)]).isOk = true :=
  ⟨rfl, chat_accumulator_amended.1 [⟨none, some []⟩] rfl⟩

/-! ## Claim C10: fields never carried by any delta finalize as null -/

/-- A loop iteration keeps `content = None` when the fragment carries no
content delta. -/
theorem chat_step_content_invariant (st st2 : ChatState) (f : ChatFragment)
    (hf : delta_content_absent f = true) (hc : st.content = none)
    (h : chat_step st f = .ok st2) : st2.content = none := by
  obtain ⟨u, ch⟩ := f
  have hu := apply_usage_preserves st u
  rcases ch with _ | (_ | ⟨⟨d⟩, cs⟩)
  · exact Except.noConfusion h
  · have h3 := Except.ok.inj h
    subst h3
    rw [hu.2.1]; exact hc
  · rcases d with _ | (_ | ⟨r, fr, ct, tcs⟩)
    · exact Except.noConfusion h
    · have h3 := Except.ok.inj h
      subst h3
      rw [hu.2.1]; exact hc
    · have hct : ct.isNone = true := hf
      rw [Option.isNone_iff_eq_none] at hct
      subst hct
      rcases tcs with _ | (_ | ⟨tc, rest⟩)
      · have h3 := Except.ok.inj h
        subst h3
        show (apply_usage st u).content = none
        rw [hu.2.1]; exact hc
      · exact Except.noConfusion h
      · obtain ⟨rec, hmrg, h3⟩ := except_map_ok h
        subst h3
        show (apply_usage st u).content = none
        rw [hu.2.1]; exact hc

/-- A loop iteration keeps `role = None` when the fragment carries no
role delta. -/
theorem chat_step_role_invariant (st st2 : ChatState) (f : ChatFragment)
    (hf : delta_role_absent f = true) (hc : st.role = none)
    (h : chat_step st f = .ok st2) : st2.role = none := by
  obtain ⟨u, ch⟩ := f
  have hu := apply_usage_preserves st u
  rcases ch with _ | (_ | ⟨⟨d⟩, cs⟩)
  · exact Except.noConfusion h
  · have h3 := Except.ok.inj h
    subst h3
    rw [hu.1]; exact hc
  · rcases d with _ | (_ | ⟨r, fr, ct, tcs⟩)
    · exact Except.noConfusion h
    · have h3 := Except.ok.inj h
      subst h3
      rw [hu.1]; exact hc
    · have hr : r.isNone = true := hf
      rw [Option.isNone_iff_eq_none] at hr
      subst hr
      rcases tcs with _ | (_ | ⟨tc, rest⟩)
      · have h3 := Except.ok.inj h
        subst h3
        show (if (apply_usage st u).role.isNone && (none : Option String).isSome
              then (none : Option String) else (apply_usage st u).role) = none
        split
        · rfl
        · rw [hu.1]; exact hc
      · exact Except.noConfusion h
      · obtain ⟨rec, hmrg, h3⟩ := except_map_ok h
        subst h3
        show (if (apply_usage st u).role.isNone && (none : Option String).isSome
              then (none : Option String) else (apply_usage st u).role) = none
        split
        · rfl
        · rw [hu.1]; exact hc

/-- A loop iteration keeps `tool_calls = None` when the fragment carries
no tool-call delta. -/
theorem chat_step_tool_calls_invariant (st st2 : ChatState) (f : ChatFragment)
    (hf : delta_tool_calls_absent f = true) (hc : st.tool_calls = none)
    (h : chat_step st f = .ok st2) : st2.tool_calls = none := by
  obtain ⟨u, ch⟩ := f
  have hu := apply_usage_preserves st u
  rcases ch with _ | (_ | ⟨⟨d⟩, cs⟩)
  · exact Except.noConfusion h
  · have h3 := Except.ok.inj h
    subst h3
    rw [hu.2.2.1]; exact hc
  · rcases d with _ | (_ | ⟨r, fr, ct, tcs⟩)
    · exact Except.noConfusion h
    · have h3 := Except.ok.inj h
      subst h3
      rw [hu.2.2.1]; exact hc
    · have ht : tcs.isNone = true := hf
      rw [Option.isNone_iff_eq_none] at ht
      subst ht
      have h3 := Except.ok.inj h
      subst h3
      show (apply_usage st u).tool_calls = none
      rw [hu.2.2.1]; exact hc

/-- A loop iteration keeps `finish_reason = None` when the fragment
carries no finish-reason delta. -/
theorem chat_step_finish_invariant (st st2 : ChatState) (f : ChatFragment)
    (hf : delta_finish_absent f = true) (hc : st.finish_reason = none)
    (h : chat_step st f = .ok st2) : st2.finish_reason = none := by
  obtain ⟨u, ch⟩ := f
  have hu := apply_usage_preserves st u
  rcases ch with _ | (_ | ⟨⟨d⟩, cs⟩)
  · exact Except.noConfusion h
  · have h3 := Except.ok.inj h
    subst h3
    rw [hu.2.2.2]; exact hc
  · rcases d with _ | (_ | ⟨r, fr, ct, tcs⟩)
    · exact Except.noConfusion h
    · have h3 := Except.ok.inj h
      subst h3
      rw [hu.2.2.2]; exact hc
    · have hfr : fr.isNone = true := hf
      rw [Option.isNone_iff_eq_none] at hfr
      subst hfr
      rcases tcs with _ | (_ | ⟨tc, rest⟩)
      · have h3 := Except.ok.inj h
        subst h3
        show (apply_usage st u).finish_reason = none
        rw [hu.2.2.2]; exact hc
      · exact Except.noConfusion h
      · obtain ⟨rec, hmrg, h3⟩ := except_map_ok h
        subst h3
        show (apply_usage st u).finish_reason = none
        rw [hu.2.2.2]; exact hc

/-- A successful postprocessing run factors through some final fold
state. -/
theorem chat_postprocess_state (frags : List ChatFragment) (r : ChatResult)
    (h : chat_postprocess frags = .ok r) :
    ∃ st2, chat_fold chat_init frags = .ok st2 ∧ r = chat_finalize st2 := by
  unfold chat_postprocess at h
  rcases hfold : chat_fold chat_init frags with e | st
  · rw [hfold] at h; exact Except.noConfusion h
  · rw [hfold] at h; exact ⟨st, rfl, (Except.ok.inj h).symm⟩

/-- Fold-level content invariant. -/
theorem chat_fold_content_invariant (frags : List ChatFragment) :
    ∀ st st2 : ChatState, frags.all delta_content_absent = true → st.content = none →
      chat_fold st frags = .ok st2 → st2.content = none := by
  induction frags with
  | nil =>
      intro st st2 _ hc h
      have h3 := Except.ok.inj h
      subst h3; exact hc
  | cons f rest ih =>
      intro st st2 hall hc h
      rw [List.all_cons, Bool.and_eq_true] at hall
      unfold chat_fold at h
      rcases hst : chat_step st f with e | stm
      · rw [hst] at h; exact Except.noConfusion h
      · rw [hst] at h
        exact ih stm st2 hall.2 (chat_step_content_invariant st stm f hall.1 hc hst) h

/-- Fold-level role invariant. -/
theorem chat_fold_role_invariant (frags : List ChatFragment) :
    ∀ st st2 : ChatState, frags.all delta_role_absent = true → st.role = none →
      chat_fold st frags = .ok st2 → st2.role = none := by
  induction frags with
  | nil =>
      intro st st2 _ hc h
      have h3 := Except.ok.inj h
      subst h3; exact hc
  | cons f rest ih =>
      intro st st2 hall hc h
      rw [List.all_cons, Bool.and_eq_true] at hall
      unfold chat_fold at h
      rcases hst : chat_step st f with e | stm
      · rw [hst] at h; exact Except.noConfusion h
      · rw [hst] at h
        exact ih stm st2 hall.2 (chat_step_role_invariant st stm f hall.1 hc hst) h

/-- Fold-level tool-call invariant. -/
theorem chat_fold_tool_calls_invariant (frags : List ChatFragment) :
    ∀ st st2 : ChatState, frags.all delta_tool_calls_absent = true → st.tool_calls = none →
      chat_fold st frags = .ok st2 → st2.tool_calls = none := by
  induction frags with
  | nil =>
      intro st st2 _ hc h
      have h3 := Except.ok.inj h
      subst h3; exact hc
  | cons f rest ih =>
      intro st st2 hall hc h
      rw [List.all_cons, Bool.and_eq_true] at hall
      unfold chat_fold at h
      rcases hst : chat_step st f with e | stm
      · rw [hst] at h; exact Except.noConfusion h
      · rw [hst] at h
        exact ih stm st2 hall.2 (chat_step_tool_calls_invariant st stm f hall.1 hc hst) h

/-- Fold-level finish-reason invariant. -/
theorem chat_fold_finish_invariant (frags : List ChatFragment) :
    ∀ st st2 : ChatState, frags.all delta_finish_absent = true → st.finish_reason = none →
      chat_fold st frags = .ok st2 → st2.finish_reason = none := by
  induction frags with
  | nil =>
      intro st st2 _ hc h
      have h3 := Except.ok.inj h
      subst h3; exact hc
  | cons f rest ih =>
      intro st st2 hall hc h
      rw [List.all_cons, Bool.and_eq_true] at hall
      unfold chat_fold at h
      rcases hst : chat_step st f with e | stm
      · rw [hst] at h; exact Except.noConfusion h
      · rw [hst] at h
        exact ih stm st2 hall.2 (chat_step_finish_invariant st stm f hall.1 hc hst) h

/-- Claim C10: when no fragment's delta carries a given field, the
corresponding field of the finalized message is null rather than an
empty default -- in particular no content deltas yield `content = null`
(not the empty string) -- and the empty fragment sequence yields
`{role: null, content: null, tool_calls: null, finish_reason: null}`
with an empty metrics mapping. -/
theorem absent_fields_stay_null :
    (∀ frags : List ChatFragment, frags.all delta_content_absent = true →
        ∀ r : ChatResult, chat_postprocess frags = .ok r →
          ∀ o ∈ r.output, o.message.content = none)
    ∧ (∀ frags : List ChatFragment, frags.all delta_role_absent = true →
        ∀ r : ChatResult, chat_postprocess frags = .ok r →
          ∀ o ∈ r.output, o.message.role = none)
    ∧ (∀ frags : List ChatFragment, frags.all delta_tool_calls_absent = true →
        ∀ r : ChatResult, chat_postprocess frags = .ok r →
          ∀ o ∈ r.output, o.message.tool_calls = none)
    ∧ (∀ frags : List ChatFragment, frags.all delta_finish_absent = true →
        ∀ r : ChatResult, chat_postprocess frags = .ok r →
          ∀ o ∈ r.output, o.finish_reason = none)
    ∧ chat_postprocess []
        = .ok { metrics := [],
                output := [{ index := 0,
                             message := { role := none, content := none, tool_calls := none },
                             logprobs := none, finish_reason := none }] } := by
  refine ⟨?_, ?_, ?_, ?_, rfl⟩
  · intro frags hall r h o ho
    obtain ⟨st2, hfold, hr⟩ := chat_postprocess_state frags r h
    subst hr
    simp [chat_finalize] at ho
    subst ho
    show st2.content = none
    exact chat_fold_content_invariant frags chat_init st2 hall rfl hfold
  · intro frags hall r h o ho
    obtain ⟨st2, hfold, hr⟩ := chat_postprocess_state frags r h
    subst hr
    simp [chat_finalize] at ho
    subst ho
    show st2.role = none
    exact chat_fold_role_invariant frags chat_init st2 hall rfl hfold
  · intro frags hall r h o ho
    obtain ⟨st2, hfold, hr⟩ := chat_postprocess_state frags r h
    subst hr
    simp [chat_finalize] at ho
    subst ho
    show st2.tool_calls = none
    exact chat_fold_tool_calls_invariant frags chat_init st2 hall rfl hfold
  · intro frags hall r h o ho
    obtain ⟨st2, hfold, hr⟩ := chat_postprocess_state frags r h
    subst hr
    simp [chat_finalize] at ho
    subst ho
    show st2.finish_reason = none
    exact chat_fold_finish_invariant frags chat_init st2 hall rfl hfold

/-- Witness for C10 at a concrete input: a role-only fragment carries no
content delta, and the finalized message's content is indeed null. -/
theorem absent_fields_stay_null_witness :
    (([demo_role_frag] : List ChatFragment).all delta_content_absent = true) ∧
    (∀ o ∈ ({ metrics := [],
              output := [{ index := 0,
                           message := { role := some "assistant", content := none,
                                        tool_calls := none },
                           logprobs := none, finish_reason := none }] } : ChatResult).output,
      o.message.content = none) :=
  ⟨rfl, absent_fields_stay_null.1 [demo_role_frag] rfl _ rfl⟩

/-! ## Claim C5: structured-response accumulator on out-of-range indices -/

/-- `resp_apply_usage` only ever touches `metrics`. -/
theorem resp_apply_usage_output (st : RespState) (u : Option RespUsage) :
    (resp_apply_usage st u).output = st.output := by
  cases u <;> rfl

/-- Claim C5 counterexample: the claim says an `output_item.done` event
whose output index does not address an existing slot is a no-op with no
error, but `output[output_index]` raises `IndexError` on the concrete
single-event sequence addressing slot 0 of an empty output list. -/
theorem resp_done_out_of_range_concrete :
    resp_postprocess [demo_done_event] = .error .indexError := rfl

/-- Claim C5 (amended): an event whose output index does not address an
existing output slot (here: any event other than `output_item.added`
carrying an `output_index` outside `[-n, n)` for the current `n`-slot
output list), and a content-bearing event whose content index is neither
equal to the current content-list length nor an existing (possibly
negative, Python-wrapped) position, make the structured-response
accumulator raise an `IndexError`, aborting the fold -- such events are
not skipped. -/
theorem resp_out_of_range_raises :
    (∀ (st : RespState) (ev : RespEvent) (i : Int),
        ev.type ≠ "response.output_item.added" →
        ev.output_index = some i →
        pyIndex st.output.length i = none →
        resp_step st ev = .error .indexError)
    ∧ (∀ (st : RespState) (ev : RespEvent) (i : Int) (idx : Nat) (ci : Int),
        ev.type ≠ "response.output_item.added" →
        ev.type ≠ "response.output_item.done" →
        ev.type ≠ "response.output_item.delta" →
        ev.output_index = some i →
        pyIndex st.output.length i = some idx →
        ev.content_index = some ci →
        ci ≠ ((((st.output.getD idx default_slot).content.getD []).length : Int)) →
        pyIndex (((st.output.getD idx default_slot).content.getD []).length) ci = none →
        resp_step st ev = .error .indexError) := by
  constructor
  · intro st ev i hty hoi hpi
    obtain ⟨ty, us, it, oi, dl, ci, ai, an⟩ := ev
    have hoi2 : oi = some i := hoi
    subst hoi2
    have hty2 : ty ≠ "response.output_item.added" := hty
    unfold resp_step
    rw [if_neg hty2]
    show (match pyIndex (resp_apply_usage st us).output.length i with
          | none => Except.error PyErr.indexError
          | some idx => resp_step_at (resp_apply_usage st us) ⟨ty, us, it, some i, dl, ci, ai, an⟩ idx)
        = Except.error PyErr.indexError
    rw [resp_apply_usage_output, hpi]
  · intro st ev i idx ci hty1 hty2 hty3 hoi hpi hci hne hpc
    obtain ⟨ty, us, it, oi, dl, cix, ai, an⟩ := ev
    have hoi2 : oi = some i := hoi
    subst hoi2
    have hci2 : cix = some ci := hci
    subst hci2
    unfold resp_step
    rw [if_neg hty1]
    show (match pyIndex (resp_apply_usage st us).output.length i with
          | none => Except.error PyErr.indexError
          | some idx => resp_step_at (resp_apply_usage st us) ⟨ty, us, it, some i, dl, some ci, ai, an⟩ idx)
        = Except.error PyErr.indexError
    rw [resp_apply_usage_output, hpi]
    show resp_step_at (resp_apply_usage st us) ⟨ty, us, it, some i, dl, some ci, ai, an⟩ idx
        = Except.error PyErr.indexError
    unfold resp_step_at
    rw [if_neg hty2, if_neg hty3]
    show resp_content_step (resp_apply_usage st us) ⟨ty, us, it, some i, dl, some ci, ai, an⟩ idx ci
        = Except.error PyErr.indexError
    simp only [resp_content_step]
    rw [resp_apply_usage_output]
    rw [if_neg hne, hpc]

/-- Witness for the amended C5 theorem at a concrete input: a done event
addressing slot 0 of an empty output list raises `IndexError`. -/
theorem resp_out_of_range_witness :
    pyIndex (RespState.mk [] []).output.length 0 = none
    ∧ resp_step ⟨[], []⟩ demo_done_event = .error .indexError :=
  ⟨rfl, resp_out_of_range_raises.1 ⟨[], []⟩ demo_done_event 0 (by decide) rfl rfl⟩

/-! ## Claim C6: fork via `copy` and the fate of the original stream -/

/-- Draining branch A is exactly iterating `tee_nextA` until it yields
nothing (one-step unrolling). -/
theorem tee_drainA_nextA (t : Tee α) :
    tee_drainA t =
      match tee_nextA t with
      | (none, t2) => ([], t2)
      | (some x, t2) =>
          let r := tee_drainA t2
          (x :: r.1, r.2) := by
  obtain ⟨src, bA, bB⟩ := t
  cases bA with
  | cons x restA => simp [tee_drainA, tee_nextA]
  | nil =>
      cases src with
      | nil => rfl
      | cons x rest => simp [tee_drainA, tee_nextA, tee_pull_source]

/-- Draining branch B is exactly iterating `tee_nextB` until it yields
nothing (one-step unrolling). -/
theorem tee_drainB_nextB (t : Tee α) :
    tee_drainB t =
      match tee_nextB t with
      | (none, t2) => ([], t2)
      | (some x, t2) =>
          let r := tee_drainB t2
          (x :: r.1, r.2) := by
  obtain ⟨src, bA, bB⟩ := t
  cases bB with
  | cons x restB => simp [tee_drainB, tee_nextB]
  | nil =>
      cases src with
      | nil => rfl
      | cons x rest => simp [tee_drainB, tee_nextB, tee_pull_source]

/-- Pulling the whole source yields it unchanged and buffers it all for
the other branch. -/
theorem tee_pull_source_eq (src : List α) :
    ∀ other : List α, tee_pull_source src other = (src, other ++ src) := by
  induction src with
  | nil => intro other; simp [tee_pull_source]
  | cons x rest ih => intro other; simp [tee_pull_source, ih]

/-- Claim C6 (amended): after `copy`, draining the original stream (tee
branch A, which `copy` installs as `self.stream`) and the returned copy
(branch B) independently -- in either order -- yields two chunk
sequences each equal to the original remaining sequence; the original
stream does not become empty: it remains directly iterable and itself
yields the full remaining sequence. -/
theorem stream_copy_fork_semantics (l : List BraintrustStreamChunk) :
    (tee_drainA (stream_copy l)).1 = l
    ∧ (tee_drainB ((tee_drainA (stream_copy l)).2)).1 = l
    ∧ (tee_drainB (stream_copy l)).1 = l
    ∧ (tee_drainA ((tee_drainB (stream_copy l)).2)).1 = l := by
  refine ⟨?_, ?_, ?_, ?_⟩ <;>
    simp [stream_copy, tee_drainA, tee_drainB, tee_pull_source_eq]

/-- Claim C6 counterexample: the claim says iterating the original stream
directly after the fork yields no elements, but after `copy` on a
one-chunk stream the original (whose `stream` attribute is tee branch A)
yields exactly the original chunk sequence, which is nonempty. -/
theorem stream_copy_original_not_empty :
    (tee_drainA (stream_copy [BraintrustStreamChunk.textChunk "hello"])).1
        = [BraintrustStreamChunk.textChunk "hello"]
    ∧ (tee_drainA (stream_copy [BraintrustStreamChunk.textChunk "hello"])).1
        ≠ ([] : List BraintrustStreamChunk) := by
  exact ⟨rfl, by decide⟩

/-! ## Claim C7: memoization of `final_value` -/

/-- Claim C7 (amended): `final_value` is extensionally idempotent -- a
second call always returns the identical value -- and when the final
value is not Python `None` it is cached, so the second call does not
re-invoke `parse_stream`; but when the final value is Python `None`
(the empty stream, or a JSON stream whose concatenated document parses
to JSON `null`), the memo attribute cannot distinguish "not yet
computed" from "computed as None", so every call re-invokes
`parse_stream`, re-draining the exhausted source and incrementing the
drain count while still returning the same value. -/
theorem final_value_idempotent_amended {α : Type} (parse : String → Option α)
    (s : BraintrustStream (Option α)) :
    (final_value parse ((final_value parse s).2)).1 = (final_value parse s).1
    ∧ (is_python_none (final_value parse s).1 = false →
        (final_value parse ((final_value parse s).2)).2.parse_calls
          = ((final_value parse s).2).parse_calls)
    ∧ (is_python_none (final_value parse s).1 = true →
        (final_value parse ((final_value parse s).2)).2.parse_calls
          = ((final_value parse s).2).parse_calls + 1) := by
  have h0 : parse_stream parse ([] : List BraintrustStreamChunk) = FinalValue.nullValue := rfl
  have pn1 : is_python_none (FinalValue.nullValue : FinalValue (Option α)) = true := rfl
  have pn2 : is_python_none (FinalValue.jsonValue (none : Option α)) = true := rfl
  have pn3 : ∀ x : α, is_python_none (FinalValue.jsonValue (some x)) = false := fun _ => rfl
  have pn4 : ∀ t, is_python_none (FinalValue.textValue t : FinalValue (Option α)) = false :=
    fun _ => rfl
  have tp1 : to_python_value (FinalValue.nullValue : FinalValue (Option α))
      = FinalValue.nullValue := rfl
  have tp2 : to_python_value (FinalValue.jsonValue (none : Option α))
      = FinalValue.nullValue := rfl
  have tp3 : ∀ x : α, to_python_value (FinalValue.jsonValue (some x))
      = FinalValue.jsonValue (some x) := fun _ => rfl
  have tp4 : ∀ t, to_python_value (FinalValue.textValue t : FinalValue (Option α))
      = FinalValue.textValue t := fun _ => rfl
  obtain ⟨chunks, memo, pc⟩ := s
  cases hm : is_python_none memo with
  | false => simp [final_value, hm]
  | true =>
      rcases hv : parse_stream parse chunks with v | t | _
      · rcases v with _ | x
        · simp [final_value, hm, hv, h0, pn1, pn2, pn3, pn4, tp1, tp2, tp3, tp4]
        · simp [final_value, hm, hv, pn1, pn2, pn3, pn4, tp1, tp2, tp3, tp4]
      · simp [final_value, hm, hv, pn1, pn2, pn3, pn4, tp1, tp2, tp3, tp4]
      · simp [final_value, hm, hv, h0, pn1, pn2, pn3, pn4, tp1, tp2, tp3, tp4]

/-- Claim C7 counterexample: the claim says the terminal value is
computed by draining the stream at most once even when it is the null
sentinel, but two `final_value` calls invoke `parse_stream` twice (the
ghost drain counter reaches 2) both on the empty stream and on a JSON
stream whose document is `null` (where `json.loads` returns Python
`None`): in either case the memoized `None` is indistinguishable from
"not computed". -/
theorem final_value_null_recompute :
    ((final_value (fun j => if j = "null" then none else some j)
        ((final_value (fun j => if j = "null" then none else some j)
          (⟨[], FinalValue.nullValue, 0⟩ :
            BraintrustStream (Option String))).2)).2).parse_calls = 2
    ∧ ((final_value (fun j => if j = "null" then none else some j)
        ((final_value (fun j => if j = "null" then none else some j)
          (⟨[BraintrustStreamChunk.jsonChunk "null"], FinalValue.nullValue, 0⟩ :
            BraintrustStream (Option String))).2)).2).parse_calls = 2 := ⟨rfl, rfl⟩

/-- Witness for the amended C7 theorem at a concrete input: a one-chunk
text stream has a final value that is not Python `None`, and the second
call performs no further drain. -/
theorem final_value_idempotent_witness :
    (is_python_none (final_value (fun j => some j)
        (⟨[BraintrustStreamChunk.textChunk "a"], FinalValue.nullValue, 0⟩ :
          BraintrustStream (Option String))).1 = false)
    ∧ (final_value (fun j => some j) ((final_value (fun j => some j)
          (⟨[BraintrustStreamChunk.textChunk "a"], FinalValue.nullValue, 0⟩ :
            BraintrustStream (Option String))).2)).2.parse_calls
        = ((final_value (fun j => some j)
            (⟨[BraintrustStreamChunk.textChunk "a"], FinalValue.nullValue, 0⟩ :
              BraintrustStream (Option String))).2).parse_calls :=
  ⟨by decide, (final_value_idempotent_amended (fun j => some j) _).2.1 (by decide)⟩

/-! ## Claims C8 and C9: span lifecycle of the call interceptor -/

/-- The generator body always emits `span.end()` exactly once, whatever
the fragments, the number of consumer pulls, the first-flag and the
accumulated results. -/
theorem gen_run_end_count (frags : List ChatFragment) :
    ∀ (m : Nat) (first : Bool) (acc : List ChatFragment),
      ((gen_run frags m first acc).1.countP is_span_end) = 1 := by
  induction frags with
  | nil =>
      intro m first acc
      cases m with
      | zero => rfl
      | succ k =>
          unfold gen_run
          rcases hpp : chat_postprocess acc.reverse with e | r <;>
            simp [hpp, List.countP_cons, is_span_end]
  | cons f rest ih =>
      intro m first acc
      cases m with
      | zero => rfl
      | succ k =>
          cases first <;>
            simp [gen_run, List.countP_append, List.countP_cons, is_span_end, ih]

/-- Claim C8: every invocation of `ChatCompletionWrapper.create` --
provider call raising, non-streaming (with or without a usable
response), or streaming with the consumer exhausting or abandoning the
stream after at least its first chunk -- ends the span it opened exactly
once, neither zero times nor twice. -/
theorem span_end_exactly_once (pb : ProviderBehavior) (c : Consumer) :
    ((create_trace pb c).1.countP is_span_end) = 1 := by
  cases pb with
  | raisesOnCall => rfl
  | immediate usage cp => cases cp <;> rfl
  | streaming frags =>
      simp [create_trace, List.countP_cons, is_span_end, gen_run_end_count]

/-- A consumer that stops strictly before exhaustion sees only the
time-to-first-token log followed by the span end. -/
theorem gen_run_abandon (frags : List ChatFragment) :
    ∀ (m : Nat) (first : Bool) (acc : List ChatFragment), 1 ≤ m → m ≤ frags.length →
      gen_run frags m first acc
        = ((if first then [SpanEvent.logTTFT] else []) ++ [SpanEvent.spanEnd], Outcome.ok) := by
  induction frags with
  | nil =>
      intro m first acc h1 h2
      exact absurd (h1.trans h2) (Nat.not_succ_le_zero 0)
  | cons f rest ih =>
      intro m first acc h1 h2
      cases m with
      | zero => exact absurd h1 (by simp)
      | succ k =>
          cases k with
          | zero => cases first <;> simp [gen_run]
          | succ k2 =>
              have h3 : 1 ≤ k2 + 1 := by omega
              have h4 : k2 + 1 ≤ rest.length := by
                rw [List.length_cons] at h2; omega
              simp [gen_run, ih (k2 + 1) false (f :: acc) h3 h4]

/-- Claim C9 (amended): when the consumer abandons a streaming result
after consuming some but not all chunks, the span is still closed and no
error is raised to the consumer, but the accumulated output and metrics
are NOT logged: the trace is exactly span start, time-to-first-token
log, span end -- the final `span.log` only runs when the generator is
driven past the last chunk. -/
theorem abandoned_stream_span_closed_without_log (frags : List ChatFragment) (k : Nat)
    (h : k + 1 ≤ frags.length) :
    create_trace (.streaming frags) (.abandonAfter k)
      = ([SpanEvent.spanStart, SpanEvent.logTTFT, SpanEvent.spanEnd], Outcome.ok) := by
  have hm : min (k + 1) (frags.length + 1) = k + 1 := by omega
  have hg := gen_run_abandon frags (k + 1) true [] (by omega) h
  show (SpanEvent.spanStart :: (gen_run frags (min (k + 1) (frags.length + 1)) true []).1,
        (gen_run frags (min (k + 1) (frags.length + 1)) true []).2)
      = ([SpanEvent.spanStart, SpanEvent.logTTFT, SpanEvent.spanEnd], Outcome.ok)
  rw [hm, hg]
  simp

/-- Claim C9 counterexample: the claim says the output and metrics for
the chunks actually observed are logged before the span ends, but when a
two-fragment stream is abandoned after its first chunk the trace
contains no accumulated-output log event at all: only span start, the
time-to-first-token log, and span end. -/
theorem abandoned_stream_not_logged :
    create_trace (.streaming [demo_content_frag "Hel", demo_content_frag "lo"]) (.abandonAfter 0)
        = ([SpanEvent.spanStart, SpanEvent.logTTFT, SpanEvent.spanEnd], Outcome.ok)
    ∧ ((create_trace (.streaming [demo_content_frag "Hel", demo_content_frag "lo"])
          (.abandonAfter 0)).1.countP is_log_stream) = 0 := ⟨rfl, rfl⟩

/-- Witness for the amended C9 theorem at a concrete input: abandoning a
two-fragment stream after its first chunk. -/
theorem abandoned_stream_witness :
    0 + 1 ≤ ([demo_content_frag "Hel", demo_content_frag "lo"] : List ChatFragment).length
    ∧ create_trace (.streaming [demo_content_frag "Hel", demo_content_frag "lo"]) (.abandonAfter 0)
        = ([SpanEvent.spanStart, SpanEvent.logTTFT, SpanEvent.spanEnd], Outcome.ok) :=
  ⟨by decide, abandoned_stream_span_closed_without_log _ 0 (by decide)⟩
